import Mathlib

/-!
Verification of the notion_mcp_server gateway against its specification.

The Python sources under `app/` are shallowly embedded: JSON values become
the inductive `JVal`, dictionaries become association lists, fallible code
returns `Option`/`Except`, and calls to external collaborators (the Notion
HTTP API, SQLAlchemy sessions, the Fernet cipher, SHA-256) are modelled as
explicit oracle parameters.  Every definition is translated from the
corresponding source function, keeping its name where Lean allows it.
-/

/-- JSON-like Python values as they flow through the gateway (dicts are
association lists in insertion order; numbers are modelled as integers,
which covers every value the claims exercise). -/
inductive JVal where
  | null
  | bool (b : Bool)
  | num (n : Int)
  | str (s : String)
  | arr (xs : List JVal)
  | obj (fields : List (String × JVal))

mutual
/-- Python `==` on `JVal` (structural equality of JSON values). -/
def jeq : JVal → JVal → Bool
  | .null, .null => true
  | .bool a, .bool b => a == b
  | .num a, .num b => a == b
  | .str a, .str b => a == b
  | .arr xs, .arr ys => jeqList xs ys
  | .obj fs, .obj gs => jeqFields fs gs
  | _, _ => false

/-- Elementwise Python `==` on JSON arrays. -/
def jeqList : List JVal → List JVal → Bool
  | [], [] => true
  | x :: xs, y :: ys => jeq x y && jeqList xs ys
  | _, _ => false

/-- Fieldwise Python `==` on JSON objects (insertion order respected,
matching the association-list representation). -/
def jeqFields : List (String × JVal) → List (String × JVal) → Bool
  | [], [] => true
  | (k, v) :: fs, (k', v') :: gs => k == k' && jeq v v' && jeqFields fs gs
  | _, _ => false
end

/-- Python `x in l` for a JSON value against a list (membership by `==`). -/
def pyMem (x : JVal) (l : List JVal) : Bool := l.any (fun y => jeq x y)

/-- Python truthiness of a `JVal` (`bool(v)`). -/
def pyTruthy : JVal → Bool
  | .null => false
  | .bool b => b
  | .num n => n != 0
  | .str s => s ≠ ""
  | .arr xs => !xs.isEmpty
  | .obj fs => !fs.isEmpty

/-- First binding of key `k` in an association list (Python dict lookup;
keys are unique in a real dict, so first-match is exact). -/
def assocFind (k : String) : List (String × JVal) → Option JVal
  | [] => none
  | (k', v) :: fs => if k' = k then some v else assocFind k fs

/-- Python `d.get(k, default)`.  Returns `none` when the receiver is not a
dict, where the Python expression would raise `AttributeError`. -/
def pyGet (j : JVal) (k : String) (dflt : JVal) : Option JVal :=
  match j with
  | .obj fs => some ((assocFind k fs).getD dflt)
  | _ => none

/-- Python `d[k]` subscription.  `none` models the `KeyError`/`TypeError`
raised when the receiver is not a dict or the key is missing. -/
def pyIndex (j : JVal) (k : String) : Option JVal :=
  match j with
  | .obj fs => assocFind k fs
  | _ => none

/-- The list of elements of a JSON array; `none` when the value is not an
array (where Python list iteration over the claims' shapes would fail). -/
def asArr : JVal → Option (List JVal)
  | .arr xs => some xs
  | _ => none

/-- Python string ordering test used for `sort_keys=True`
(code-point lexicographic, `a ≤ b`). -/
def strKeyLe (a b : String) : Bool := a == b || decide (a < b)

/-- Insert one rendered field into a key-sorted list of rendered fields. -/
def insertByKey (f : String × String) : List (String × String) → List (String × String)
  | [] => [f]
  | g :: gs => if strKeyLe f.1 g.1 then f :: g :: gs else g :: insertByKey f gs

/-- Key-sort the rendered fields of an object (insertion sort; dict keys
are unique, so ties never matter). -/
def sortPairs : List (String × String) → List (String × String)
  | [] => []
  | f :: fs => insertByKey f (sortPairs fs)

/-- Four lowercase hex digits, as produced by `json.dumps` `\uXXXX` escapes. -/
def hex4 (n : Nat) : String :=
  let ds := Nat.toDigits 16 (n % 65536)
  String.mk (List.replicate (4 - ds.length) '0' ++ ds)

/-- Escape of a single character following `json.dumps` defaults
(`ensure_ascii=True`; characters above the BMP are out of model scope). -/
def escapeChar (c : Char) : String :=
  if c = '"' then "\\\""
  else if c = '\\' then "\\\\"
  else if c = '\n' then "\\n"
  else if c = '\r' then "\\r"
  else if c = '\t' then "\\t"
  else if c.toNat = 8 then "\\b"
  else if c.toNat = 12 then "\\f"
  else if c.toNat < 32 ∨ c.toNat > 126 then "\\u" ++ hex4 c.toNat
  else String.mk [c]

/-- JSON string-literal escaping of a whole string. -/
def escapeString (s : String) : String :=
  String.join (s.data.map escapeChar)

mutual
/-- `json.dumps(v, sort_keys=True)` with the default separators.  Object
fields are rendered first and then key-sorted, which yields the same
output as sorting before rendering since the sort compares keys only. -/
def dumps : JVal → String
  | .null => "null"
  | .bool true => "true"
  | .bool false => "false"
  | .num n => toString n
  | .str s => "\"" ++ escapeString s ++ "\""
  | .arr xs => "[" ++ String.intercalate ", " (dumpsList xs) ++ "]"
  | .obj fs =>
      "\x7b" ++
        String.intercalate ", "
          ((sortPairs (dumpsFields fs)).map
            (fun kv => "\"" ++ escapeString kv.1 ++ "\": " ++ kv.2)) ++
      "\x7d"

/-- Serialization of each element of a JSON array. -/
def dumpsList : List JVal → List String
  | [] => []
  | x :: xs => dumps x :: dumpsList xs

/-- Rendering of each object field to `(key, serialized value)`. -/
def dumpsFields : List (String × JVal) → List (String × String)
  | [] => []
  | (k, v) :: fs => (k, dumps v) :: dumpsFields fs
end

/-! ### Property normalizer (`app/services/property_normalizer.py`) -/

/-- `value is None` test. -/
def JVal.isNull : JVal → Bool
  | .null => true
  | _ => false

/-- Python `float(value)` on a JSON value.  Numbers are modelled as
integers, so an int stays an int; `float()` of a non-numeric value raises,
which `none` models (numeric strings are parsed as integers, the
integral fragment this model covers). -/
def pyFloat : JVal → Option JVal
  | .num n => some (.num n)
  | .bool b => some (.num (if b then 1 else 0))
  | .str s => (s.toInt?).map (fun n => JVal.num n)
  | _ => none

/-- Python `str(value)`.  Containers are rendered by their JSON dump; only
scalars are exercised by the routes this development verifies. -/
def pyStr : JVal → String
  | .str s => s
  | .num n => toString n
  | .bool true => "True"
  | .bool false => "False"
  | .null => "None"
  | v => dumps v

/-- `{"name": v}` wrapping of bare strings in multi_select/status lists. -/
def nameItem : JVal → JVal
  | .str s => .obj [("name", .str s)]
  | v => v

/-- `{"id": v}` wrapping of bare strings in people/relation lists. -/
def idItem : JVal → JVal
  | .str s => .obj [("id", .str s)]
  | v => v

/-- `PropertyNormalizer.normalize_property_value`: converts one simplified
property value to the Notion wire shape.  `none` models a raised Python
exception (only reachable through `float()` on a non-numeric value); the
`datetime` branch of the `date` case is outside the JSON value model. -/
def normalize_property_value (prop_type : String) (value : JVal) : Option JVal :=
  if value.isNull then some (.obj [])
  else if prop_type = "title" then
    match value with
    | .str s => some (.obj [("title", .arr
        [.obj [("type", .str "text"), ("text", .obj [("content", .str s)])]])])
    | _ => some (.obj [("title", value)])
  else if prop_type = "rich_text" then
    match value with
    | .str s => some (.obj [("rich_text", .arr
        [.obj [("type", .str "text"), ("text", .obj [("content", .str s)])]])])
    | _ => some (.obj [("rich_text", value)])
  else if prop_type = "number" then
    (pyFloat value).map (fun f => JVal.obj [("number", f)])
  else if prop_type = "select" then
    match value with
    | .str s => some (.obj [("select", .obj [("name", .str s)])])
    | _ => some (.obj [("select", value)])
  else if prop_type = "multi_select" then
    match value with
    | .arr xs => some (.obj [("multi_select", .arr (xs.map nameItem))])
    | _ => some (.obj [("multi_select", value)])
  else if prop_type = "status" then
    match value with
    | .str s => some (.obj [("status", .obj [("name", .str s)])])
    | _ => some (.obj [("status", value)])
  else if prop_type = "date" then
    match value with
    | .str s => some (.obj [("date", .obj [("start", .str s)])])
    | _ => some (.obj [("date", value)])
  else if prop_type = "checkbox" then
    some (.obj [("checkbox", .bool (pyTruthy value))])
  else if prop_type = "url" then
    some (.obj [("url", if pyTruthy value then .str (pyStr value) else .null)])
  else if prop_type = "email" then
    some (.obj [("email", if pyTruthy value then .str (pyStr value) else .null)])
  else if prop_type = "phone_number" then
    some (.obj [("phone_number", if pyTruthy value then .str (pyStr value) else .null)])
  else if prop_type = "people" then
    match value with
    | .arr xs => some (.obj [("people", .arr (xs.map idItem))])
    | _ => some (.obj [("people", value)])
  else if prop_type = "files" then
    match value with
    | .arr xs => some (.obj [("files", .arr xs)])
    | _ => some (.obj [("files", .arr [value])])
  else if prop_type = "relation" then
    match value with
    | .arr xs => some (.obj [("relation", .arr (xs.map idItem))])
    | .str s => some (.obj [("relation", .arr [.obj [("id", .str s)]])])
    | _ => some (.obj [("relation", value)])
  else
    some (.obj [(prop_type, value)])

/-- `PropertyNormalizer.normalize_properties`: each field in the
`{"type": ..., "value": ...}` envelope form is normalized; anything else
passes through unchanged.  A non-string `type` tag is outside the
string-keyed object model and maps to `none`. -/
def normalize_properties (properties : List (String × JVal)) :
    Option (List (String × JVal)) :=
  properties.mapM (fun kv =>
    match kv.2 with
    | .obj fs =>
        match assocFind "type" fs, assocFind "value" fs with
        | some (.str t), some v =>
            (normalize_property_value t v).map (fun nv => (kv.1, nv))
        | some _, some _ => none
        | _, _ => some kv
    | _ => some kv)

/-! ### Idempotency service (`app/services/idempotency.py`) -/

/-- One row of the `idempotency_keys` table (`IdempotencyKey` model).
Timestamps are modelled as natural numbers. -/
structure IdemRec where
  key : String
  connection_id : Option String
  request_hash : String
  response_body : JVal
  expires_at : Nat

/-- `generate_request_hash`: SHA-256 hex digest of the sorted-key JSON
serialization of `{method, path, body, params}`.  The SHA-256 primitive
(`hashlib.sha256(...).hexdigest()`) is an oracle parameter; `body or {}`
replaces a missing or falsy body/params with the empty dict. -/
def generate_request_hash (sha256_hex : String → String)
    (method path : String) (body params : Option JVal) : String :=
  let orEmpty : Option JVal → JVal := fun o =>
    match o with
    | some v => if pyTruthy v then v else .obj []
    | none => .obj []
  let data : JVal := .obj
    [("method", .str method), ("path", .str path),
     ("body", orEmpty body), ("params", orEmpty params)]
  sha256_hex (dumps data)

/-- `check_idempotency`: looks up the key in the table (first row whose
`key` matches, the primary-key lookup), deletes it if expired, compares
the stored hash with the canonical hash of the current request, and
returns the cached response on a match.  Result: returned value paired
with the table after the call. -/
def check_idempotency (sha256_hex : String → String) (table : List IdemRec)
    (now : Nat) (idempotency_key : String) (_connection_id : Option String)
    (method path : String) (body params : Option JVal) :
    Option JVal × List IdemRec :=
  match table.find? (fun r => r.key == idempotency_key) with
  | none => (none, table)
  | some key_record =>
    if key_record.expires_at < now then
      (none, table.eraseP (fun r => r.key == idempotency_key))
    else
      let request_hash := generate_request_hash sha256_hex method path body params
      if key_record.request_hash ≠ request_hash then
        (none, table)
      else
        (some key_record.response_body, table)

/-- A transactional store: `committed` is the durable table, `session` the
view inside the current SQLAlchemy session (adds/updates land here until
`commit`; `rollback` resets it to `committed`). -/
structure Store (α : Type) where
  committed : List α
  session : List α

/-- Outcome of a service call: a normal return carrying the store, or a
propagated Python exception. -/
inductive CallOutcome (σ : Type) where
  | returned (s : σ)
  | raised (msg : String)

/-- Whether a call returned normally. -/
def CallOutcome.isReturned : CallOutcome σ → Bool
  | .returned _ => true
  | .raised _ => false

/-- `store_idempotency`: computes the canonical hash, sets expiry to
`now + TTL`, updates the row in place when the key exists and inserts it
otherwise, then commits.  `uuid.UUID` validation is the `is_valid_uuid`
oracle; a failing commit is the `commit_fails` oracle.  The whole body is
wrapped in `try/except` that logs, rolls back, and returns normally. -/
def store_idempotency (sha256_hex : String → String) (ttl : Nat)
    (is_valid_uuid : String → Bool) (commit_fails : Bool)
    (db : Store IdemRec) (now : Nat) (idempotency_key : String)
    (connection_id : Option String) (method path : String)
    (body params : Option JVal) (response_body : JVal) :
    CallOutcome (Store IdemRec) :=
  let conn_uuid : Option String :=
    match connection_id with
    | some c => if is_valid_uuid c then some c else none
    | none => none
  let request_hash := generate_request_hash sha256_hex method path body params
  let expires_at := now + ttl
  let session' : List IdemRec :=
    match db.session.find? (fun r => r.key == idempotency_key) with
    | some _ =>
        db.session.map (fun r =>
          if r.key == idempotency_key then
            { r with connection_id := conn_uuid, request_hash := request_hash,
                     response_body := response_body, expires_at := expires_at }
          else r)
    | none =>
        db.session ++
          [{ key := idempotency_key, connection_id := conn_uuid,
             request_hash := request_hash, response_body := response_body,
             expires_at := expires_at }]
  let attempt : Except String (Store IdemRec) :=
    if commit_fails then .error "commit failed"
    else .ok { committed := session', session := session' }
  match attempt with
  | .ok db' => .returned db'
  | .error _ => .returned { committed := db.committed, session := db.committed }

/-! ### Audit service (`app/services/audit.py`) -/

/-- One row of the audit table (`AuditLog` model), with the fields
`log_audit` writes. -/
structure AuditRec where
  connection_id : Option String
  request_id : Option String
  actor : String
  method : String
  path : String
  notion_ids : Option JVal
  summary : Option String
  success : Bool

/-- `log_audit`: builds the audit row (invalid connection UUIDs degrade to
`NULL`), adds it to the session and commits; any storage failure
(`commit_fails` oracle) is caught, logged and rolled back, and the
function returns normally.  The `error_code` parameter is accepted but
not written to the row, exactly as in the source. -/
def log_audit (is_valid_uuid : String → Bool) (commit_fails : Bool)
    (db : Store AuditRec) (connection_id request_id : Option String)
    (actor method path : String) (notion_ids : Option JVal)
    (summary : Option String) (success : Bool)
    (_error_code : Option String) : CallOutcome (Store AuditRec) :=
  let conn_uuid : Option String :=
    match connection_id with
    | some c => if is_valid_uuid c then some c else none
    | none => none
  let audit_entry : AuditRec :=
    { connection_id := conn_uuid, request_id := request_id, actor := actor,
      method := method, path := path, notion_ids := notion_ids,
      summary := summary, success := success }
  let session' := db.session ++ [audit_entry]
  let attempt : Except String (Store AuditRec) :=
    if commit_fails then .error "commit failed"
    else .ok { committed := session', session := session' }
  match attempt with
  | .ok db' => .returned db'
  | .error _ => .returned { committed := db.committed, session := db.committed }

/-! ### Core engine (`app/core/engine.py`) -/

/-- One request the engine submits to the Notion API client, carrying
exactly the arguments the source passes (property maps already
normalized). -/
inductive UpstreamCall where
  | query (database_id : String) (filter : JVal) (page_size : Nat)
  | pageUpdate (page_id : JVal) (properties : Option (List (String × JVal)))
  | pageCreate (parent : JVal) (properties : List (String × JVal))
      (children : Option (List JVal))
  | appendChildren (block_id : JVal) (children : List JVal)

/-- The filter object `NotionEngine.upsert_page` builds: always a
rich-text-equals comparison on the unique property. -/
def upsert_filter_obj (unique_property unique_value : String) : JVal :=
  .obj [("property", .str unique_property),
        ("rich_text", .obj [("equals", .str unique_value)])]

/-- Python `s.lower()` on the ASCII fragment (character-wise lowering). -/
def py_lower (s : String) : String :=
  String.mk (s.data.map Char.toLower)

/-- The upsert query filter as the specification's words describe it:
title-equals when the lower-cased property name is `"name"` or `"title"`,
rich-text-equals otherwise.  Kept only to compare the source behaviour
against the specified one. -/
def upsert_filter_as_specified (unique_property unique_value : String) : JVal :=
  if py_lower unique_property = "name" ∨ py_lower unique_property = "title" then
    .obj [("property", .str unique_property),
          ("title", .obj [("equals", .str unique_value)])]
  else
    .obj [("property", .str unique_property),
          ("rich_text", .obj [("equals", .str unique_value)])]

/-- `NotionEngine.page_update`'s property handling: a falsy (empty)
property map is omitted from the update; otherwise it is normalized. -/
def page_update_props (properties : List (String × JVal)) :
    Option (Option (List (String × JVal))) :=
  if properties.isEmpty then some none
  else (normalize_properties properties).map some

/-- `NotionEngine.upsert_page`, rendered as the trace of upstream calls it
issues.  `query_result` is the oracle response to the database query;
`none` models a raised Python exception (malformed query response or a
normalization failure).  The create branch passes `properties` through
unchanged — the source does not add the unique property to it. -/
def upsert_page (database_id unique_property unique_value : String)
    (properties : List (String × JVal)) (children : Option (List JVal))
    (query_result : JVal) : Option (List UpstreamCall) :=
  let filter_obj := upsert_filter_obj unique_property unique_value
  let q := UpstreamCall.query database_id filter_obj 1
  let createBranch : Option (List UpstreamCall) :=
    (normalize_properties properties).map (fun norm =>
      [q, .pageCreate
            (.obj [("type", .str "database_id"), ("database_id", .str database_id)])
            norm children])
  match pyGet query_result "results" (.arr []) with
  | none => none
  | some existing_pages =>
    match existing_pages with
    | .arr [] => createBranch
    | .arr (page :: _) =>
        match pyIndex page "id" with
        | none => none
        | some page_id =>
          match page_update_props properties with
          | none => none
          | some props =>
            some ([q, .pageUpdate page_id props] ++
              (match children with
               | some cs => if cs.isEmpty then [] else [.appendChildren page_id cs]
               | none => []))
    | other => if pyTruthy other then none else createBranch

/-- The list comprehension `[rel["id"] for rel in current_relations]`:
`none` models the `KeyError` on an entry without an `"id"`. -/
def relIdsOf : List JVal → Option (List JVal)
  | [] => some []
  | rel :: rest =>
    match pyIndex rel "id" with
    | some v => (relIdsOf rest).map (fun ids => v :: ids)
    | none => none

/-- The relation list `NotionEngine.link_pages` submits in its page
update: the current list read from
`page.properties[relation_property].relation`, with `{"id": to_page_id}`
appended when no existing entry's `"id"` equals `to_page_id`.  `none`
models a raised Python exception (missing `"id"` on an entry, or a
malformed page shape). -/
def link_pages_relations (page : JVal) (relation_property to_page_id : String) :
    Option (List JVal) := do
  let props ← pyGet page "properties" (.obj [])
  let prop ← pyGet props relation_property (.obj [])
  let relv ← pyGet prop "relation" (.arr [])
  let current_relations ← asArr relv
  let relation_ids ← relIdsOf current_relations
  pure (if pyMem (.str to_page_id) relation_ids then current_relations
        else current_relations ++ [.obj [("id", .str to_page_id)]])

/-- `NotionEngine.link_pages`, rendered as the page update it issues after
reading `page` (the oracle response to `page_get`). -/
def link_pages (from_page_id to_page_id relation_property : String)
    (page : JVal) : Option UpstreamCall := do
  let rels ← link_pages_relations page relation_property to_page_id
  let props ← page_update_props
    [(relation_property, .obj [("relation", .arr rels)])]
  pure (.pageUpdate (.str from_page_id) props)

/-- The entry predicate "this relation entry's `id` equals `to_page_id`"
(Python `rel["id"] == to_page_id`, `false` when `rel` has no `id`). -/
def relEntryIs (to_page_id : String) (rel : JVal) : Bool :=
  match pyIndex rel "id" with
  | some v => jeq (.str to_page_id) v
  | none => false

/-- The action of one `link_pages` call on the stored relation list, for
pages whose relation entries all carry an `"id"` (the shape the Notion API
guarantees): append the new reference unless an entry for it exists. -/
def link_step (to_page_id : String) (rels : List JVal) : List JVal :=
  if rels.any (relEntryIs to_page_id) then rels
  else rels ++ [.obj [("id", .str to_page_id)]]

/-- A page object holding `rels` as the relation list of
`relation_property` (the shape `page_get` returns for a page with that
one property). -/
def mkRelPage (relation_property : String) (rels : List JVal) : JVal :=
  .obj [("properties", .obj [(relation_property, .obj [("relation", .arr rels)])])]

/-- Number of entries of a relation list whose `"id"` is `to_page_id`. -/
def countRel (to_page_id : String) (rels : List JVal) : Nat :=
  rels.countP (relEntryIs to_page_id)

/-! ### Bulk operations (`NotionEngine.bulk_operations`) -/

/-- The `op` values `bulk_operations` dispatches on. -/
def bulk_known_ops : List String :=
  ["upsert", "link", "create_page", "update_page",
   "create_database", "query_database"]

/-- One entry of the bulk `results[]`/`errors[]` arrays. -/
structure BulkEntry where
  index : Nat
  operation : Option String
  success : Bool
  result : Option JVal
  error : Option String

/-- The summary `bulk_operations` returns. -/
structure BulkSummary where
  total : Nat
  succeeded : Nat
  failed : Nat
  results : List BulkEntry
  errors : List BulkEntry

/-- Execution of the entry at position `i`: a recognized `op` runs through
the engine (the `exec` oracle gives each position's outcome, success value
or exception text); an unrecognized or missing `op` raises
`ValidationError("Unknown operation: ...")`, caught by the same per-entry
handler. -/
def bulk_step (exec : Nat → Except String JVal) (i : Nat)
    (op_type : Option String) : Except String JVal :=
  match op_type with
  | some t => if t ∈ bulk_known_ops then exec i
              else .error ("Unknown operation: " ++ t)
  | none => .error "Unknown operation: None"

/-- The `for i, operation in enumerate(operations)` loop of
`bulk_operations`: successes append to `results`, failures append to both
`results` and `errors`, and `mode == "stop_on_error"` breaks after the
first failure. -/
def bulk_loop (exec : Nat → Except String JVal) (mode : String) :
    List (Option String) → Nat → List BulkEntry × List BulkEntry
  | [], _ => ([], [])
  | op :: rest, i =>
    match bulk_step exec i op with
    | .ok v =>
        let tl := bulk_loop exec mode rest (i + 1)
        ({ index := i, operation := op, success := true,
           result := some v, error := none } :: tl.1, tl.2)
    | .error e =>
        let entry : BulkEntry :=
          { index := i, operation := op, success := false,
            result := none, error := some e }
        if mode = "stop_on_error" then ([entry], [entry])
        else
          let tl := bulk_loop exec mode rest (i + 1)
          (entry :: tl.1, entry :: tl.2)

/-- `NotionEngine.bulk_operations`: runs the loop and assembles the
summary (`total` = input length, `succeeded` = count of successful
results, `failed` = length of `errors`). -/
def bulk_operations (exec : Nat → Except String JVal)
    (operations : List (Option String)) (mode : String) : BulkSummary :=
  let acc := bulk_loop exec mode operations 0
  { total := operations.length,
    succeeded := acc.1.countP (fun r => r.success),
    failed := acc.2.length,
    results := acc.1,
    errors := acc.2 }

/-! ### Notion client retry wrapper
(`app/services/notion_client.py`, `NotionClientWrapper._retry_request`) -/

/-- An upstream `APIResponseError`, carrying its machine-readable code. -/
structure ApiError where
  code : String
deriving DecidableEq

/-- Result of the retry wrapper: the wrapped call's value, a re-raised
upstream error, or the defensive `Exception("Max retries ... exceeded")`
after the loop runs dry (reachable only when `max_retries = 0`). -/
inductive RetryOutcome (α : Type) where
  | ok (a : α)
  | raised (e : ApiError)
  | exhausted
deriving DecidableEq

/-- The retry loop of `_retry_request` from a given attempt number.  The
`f` oracle gives each attempt's outcome.  Returns the final outcome and
the list of backoff delays slept (`retry_delay * 2 ** attempt`). -/
def retry_request_from (f : Nat → Except ApiError α)
    (max_retries : Nat) (retry_delay : ℚ) (attempt : Nat) :
    RetryOutcome α × List ℚ :=
  if attempt < max_retries then
    match f attempt with
    | .ok a => (.ok a, [])
    | .error e =>
      if e.code ∈ ["rate_limited", "service_unavailable"] ∧
          attempt < max_retries - 1 then
        let tl := retry_request_from f max_retries retry_delay (attempt + 1)
        (tl.1, (retry_delay * 2 ^ attempt) :: tl.2)
      else (.raised e, [])
  else (.exhausted, [])
termination_by max_retries - attempt
decreasing_by omega

/-- `NotionClientWrapper._retry_request` (the loop started at attempt 0). -/
def retry_request (f : Nat → Except ApiError α)
    (max_retries : Nat) (retry_delay : ℚ) : RetryOutcome α × List ℚ :=
  retry_request_from f max_retries retry_delay 0

/-! ### Token encryption (`app/services/token_encryption.py`) -/

/-- The Fernet primitive as an oracle: `enc` is `Fernet.encrypt` (total
for a valid key), `dec` is `Fernet.decrypt`, with `none` modelling the
`InvalidToken` exception on corrupted or wrong-key ciphertext. -/
structure FernetCipher where
  enc : String → String
  dec : String → Option String

/-- `TokenEncryption.encrypt`: an empty (falsy) plaintext short-circuits
to the empty string; otherwise the Fernet ciphertext is returned. -/
def TokenEncryption.encrypt (cipher : FernetCipher) (plaintext : String) :
    String :=
  if plaintext = "" then "" else cipher.enc plaintext

/-- `TokenEncryption.decrypt`: an empty (falsy) ciphertext short-circuits
to the empty string; a Fernet failure is re-raised as
`ValueError("Failed to decrypt token: ...")`. -/
def TokenEncryption.decrypt (cipher : FernetCipher) (ciphertext : String) :
    Except String String :=
  if ciphertext = "" then .ok ""
  else
    match cipher.dec ciphertext with
    | some plaintext => .ok plaintext
    | none => .error "Failed to decrypt token"

/-! ### Timeout middleware (`app/middleware/timeout.py`) -/

/-- Python `sub in s` on strings (contiguous substring test). -/
def listContainsSeq (sub : List Char) : List Char → Bool
  | [] => sub.isEmpty
  | c :: cs => sub.isPrefixOf (c :: cs) || listContainsSeq sub cs

/-- Python `sub in s` lifted to `String`. -/
def str_contains (s sub : String) : Bool := listContainsSeq sub.data s.data

/-- `DEFAULT_TIMEOUT = 30.0`. -/
def DEFAULT_TIMEOUT : ℚ := 30

/-- `JOB_TIMEOUT = 60.0`. -/
def JOB_TIMEOUT : ℚ := 60

/-- An HTTP response: status code plus JSON body. -/
structure JSONResponse where
  status_code : Nat
  content : JVal

/-- Python `str()` of a float that is integral (`30.0`, `60.0`), the only
values the middleware formats. -/
def float_repr (t : ℚ) : String :=
  if t.den = 1 then toString t.num ++ ".0" else toString t

/-- The 504 envelope body built by the middleware's `except` branch
(`StandardResponse(ok=False, error={...}, meta={...}).dict()`). -/
def timeout_response_content (timeout : ℚ) (request_id : Option String) : JVal :=
  .obj [("ok", .bool false),
        ("result", .null),
        ("error", .obj
          [("code", .str "timeout"),
           ("message", .str ("Request timed out after " ++ float_repr timeout ++ "s")),
           ("details", .obj [])]),
        ("meta", .obj [("request_id",
           match request_id with
           | some r => .str r
           | none => .null)])]

/-- The bound `TimeoutMiddleware.dispatch` applies: `JOB_TIMEOUT` when the
request path contains `/jobs` or `/bulk`, the instance's configured
timeout otherwise (`DEFAULT_TIMEOUT` for the default construction). -/
def effective_timeout (self_timeout : ℚ) (path : String) : ℚ :=
  if str_contains path "/jobs" || str_contains path "/bulk" then JOB_TIMEOUT
  else self_timeout

/-- `TimeoutMiddleware.dispatch`: the handler's response when it finishes
within the bound, the 504 timeout envelope otherwise.  `asyncio.wait_for`
is modelled by comparing the handler's duration against the bound. -/
def TimeoutMiddleware.dispatch (self_timeout : ℚ) (path : String)
    (request_id : Option String) (handler_duration : ℚ)
    (handler_response : JSONResponse) : JSONResponse :=
  let timeout := effective_timeout self_timeout path
  if handler_duration ≤ timeout then handler_response
  else { status_code := 504,
         content := timeout_response_content timeout request_id }

/-- A concrete Fernet-like cipher satisfying the authenticated-encryption
interface: prepends a marker character and rejects inputs missing it.
Used only to instantiate the encryption theorem on concrete data. -/
def witCipher : FernetCipher where
  enc := fun s => "X" ++ s
  dec := fun t =>
    match t.data with
    | 'X' :: rest => some (String.mk rest)
    | _ => none

/-! ## Claim theorems -/

/-- Claim C9: for every property type string `t`,
`normalize_property_value t None` returns the empty object — a null value
produces no typed payload at all, for every supported and unsupported
type alike. -/
theorem c9_null_value_empty_object (t : String) :
    normalize_property_value t .null = some (.obj []) := rfl

/-- Claim C7: `log_audit` and `store_idempotency` never raise to their
caller — every storage failure is caught, the transaction is rolled back
(the session reset to the committed state), and the function returns
normally. -/
theorem c7_best_effort_writes (is_valid_uuid : String → Bool)
    (commit_fails : Bool) (adb : Store AuditRec) (idb : Store IdemRec)
    (sha256_hex : String → String) (ttl now : Nat)
    (idempotency_key : String) (connection_id request_id : Option String)
    (actor method path : String) (notion_ids : Option JVal)
    (summary : Option String) (success : Bool) (error_code : Option String)
    (body params : Option JVal) (response_body : JVal) :
    ((log_audit is_valid_uuid commit_fails adb connection_id request_id
        actor method path notion_ids summary success error_code).isReturned
      = true) ∧
    (commit_fails = true →
      log_audit is_valid_uuid commit_fails adb connection_id request_id
        actor method path notion_ids summary success error_code
      = .returned { committed := adb.committed, session := adb.committed }) ∧
    ((store_idempotency sha256_hex ttl is_valid_uuid commit_fails idb now
        idempotency_key connection_id method path body params
        response_body).isReturned = true) ∧
    (commit_fails = true →
      store_idempotency sha256_hex ttl is_valid_uuid commit_fails idb now
        idempotency_key connection_id method path body params response_body
      = .returned { committed := idb.committed, session := idb.committed }) := by
  cases commit_fails <;>
    simp [log_audit, store_idempotency, CallOutcome.isReturned]

/-- Witness for C7: with a failing commit, both services still return
normally, with the session rolled back to the committed table. -/
theorem c7_witness :
    (log_audit (fun _ => true) true ⟨[], []⟩ none none "chatgpt_action"
        "POST" "/v1/upsert" none none true none
      = .returned { committed := [], session := [] }) ∧
    (store_idempotency (fun _ => "h") 3600 (fun _ => true) true ⟨[], []⟩ 0
        "k" none "POST" "/v1/upsert" none none .null
      = .returned { committed := [], session := [] }) := by
  refine ⟨?_, ?_⟩
  · exact (c7_best_effort_writes (fun _ => true) true ⟨[], []⟩ ⟨[], []⟩
      (fun _ => "h") 3600 0 "k" none none "chatgpt_action" "POST"
      "/v1/upsert" none none true none none none .null).2.1 rfl
  · exact (c7_best_effort_writes (fun _ => true) true ⟨[], []⟩ ⟨[], []⟩
      (fun _ => "h") 3600 0 "k" none none "chatgpt_action" "POST"
      "/v1/upsert" none none true none none none .null).2.2.2 rfl

/-- Claim C6: under a correct Fernet cipher (round trip holds and
ciphertexts are non-empty), `decrypt (encrypt s) = s` for every string,
the empty string short-circuits both ways, and a ciphertext the cipher
rejects (corrupted, or produced under another key) yields a decryption
error, never a wrong plaintext. -/
theorem c6_encryption_round_trip (cipher : FernetCipher)
    (h_rt : ∀ s, cipher.dec (cipher.enc s) = some s)
    (h_ne : ∀ s, s ≠ "" → cipher.enc s ≠ "") :
    (∀ s, TokenEncryption.decrypt cipher (TokenEncryption.encrypt cipher s)
       = .ok s) ∧
    TokenEncryption.encrypt cipher "" = "" ∧
    TokenEncryption.decrypt cipher "" = .ok "" ∧
    (∀ ct, ct ≠ "" → cipher.dec ct = none →
       TokenEncryption.decrypt cipher ct
         = .error "Failed to decrypt token") := by
  refine ⟨?_, rfl, rfl, ?_⟩
  · intro s
    by_cases hs : s = ""
    · subst hs; rfl
    · rw [TokenEncryption.encrypt, if_neg hs, TokenEncryption.decrypt,
        if_neg (h_ne s hs), h_rt]
  · intro ct hct hdec
    rw [TokenEncryption.decrypt, if_neg hct, hdec]

/-- Witness for C6: the round trip, both empty-string short circuits, and
the rejection of a corrupted ciphertext, on the concrete cipher. -/
theorem c6_witness :
    (TokenEncryption.decrypt witCipher
       (TokenEncryption.encrypt witCipher "secret-token") = .ok "secret-token") ∧
    TokenEncryption.encrypt witCipher "" = "" ∧
    TokenEncryption.decrypt witCipher "" = .ok "" ∧
    TokenEncryption.decrypt witCipher "A"
      = .error "Failed to decrypt token" := by
  have h_rt : ∀ s, witCipher.dec (witCipher.enc s) = some s := by
    intro s
    cases s with
    | mk l => rfl
  have h_ne : ∀ s, s ≠ "" → witCipher.enc s ≠ "" := by
    intro s _ h
    have hd := congrArg String.data h
    cases s with
    | mk l => exact absurd hd (by simp [witCipher, String.data])
  have h := c6_encryption_round_trip witCipher h_rt h_ne
  exact ⟨h.1 "secret-token", h.2.1, h.2.2.1, h.2.2.2 "A" (by decide) rfl⟩

/-- Claim C8: the timeout middleware, as constructed by default, bounds
handler execution by 60 seconds when the request path contains `/jobs` or
`/bulk` and by 30 seconds otherwise; a handler finishing within the bound
passes through untouched, and on expiry the middleware returns HTTP 504
with an envelope whose `ok` is false and whose `error.code` is
`"timeout"`. -/
theorem c8_timeout_dispatch (path : String) (request_id : Option String)
    (handler_duration : ℚ) (handler_response : JSONResponse) :
    ((str_contains path "/jobs" || str_contains path "/bulk") = true →
       effective_timeout DEFAULT_TIMEOUT path = 60) ∧
    ((str_contains path "/jobs" || str_contains path "/bulk") = false →
       effective_timeout DEFAULT_TIMEOUT path = 30) ∧
    (handler_duration ≤ effective_timeout DEFAULT_TIMEOUT path →
       TimeoutMiddleware.dispatch DEFAULT_TIMEOUT path request_id
         handler_duration handler_response = handler_response) ∧
    (¬ handler_duration ≤ effective_timeout DEFAULT_TIMEOUT path →
       (TimeoutMiddleware.dispatch DEFAULT_TIMEOUT path request_id
          handler_duration handler_response).status_code = 504 ∧
       pyIndex (TimeoutMiddleware.dispatch DEFAULT_TIMEOUT path request_id
          handler_duration handler_response).content "ok"
         = some (.bool false) ∧
       ((pyIndex (TimeoutMiddleware.dispatch DEFAULT_TIMEOUT path request_id
           handler_duration handler_response).content "error").bind
          (fun e => pyIndex e "code")) = some (.str "timeout")) := by
  refine ⟨?_, ?_, ?_, ?_⟩
  · intro h; simp [effective_timeout, h, JOB_TIMEOUT]
  · intro h; simp [effective_timeout, h, DEFAULT_TIMEOUT]
  · intro h; simp [TimeoutMiddleware.dispatch, h]
  · intro h
    simp [TimeoutMiddleware.dispatch, h, timeout_response_content,
      pyIndex, assocFind]

/-- Witness for C8: a job-path request delayed past 60 seconds is turned
into the 504 timeout envelope, a fast request passes through, and the two
bound selections evaluate on concrete paths. -/
theorem c8_witness :
    effective_timeout DEFAULT_TIMEOUT "/v1/bulk" = 60 ∧
    effective_timeout DEFAULT_TIMEOUT "/v1/pages" = 30 ∧
    TimeoutMiddleware.dispatch DEFAULT_TIMEOUT "/v1/pages" (some "r1") 1
      ⟨200, .null⟩ = ⟨200, .null⟩ ∧
    (TimeoutMiddleware.dispatch DEFAULT_TIMEOUT "/v1/bulk" (some "r1") 61
       ⟨200, .null⟩).status_code = 504 ∧
    pyIndex (TimeoutMiddleware.dispatch DEFAULT_TIMEOUT "/v1/bulk"
       (some "r1") 61 ⟨200, .null⟩).content "ok" = some (.bool false) ∧
    ((pyIndex (TimeoutMiddleware.dispatch DEFAULT_TIMEOUT "/v1/bulk"
        (some "r1") 61 ⟨200, .null⟩).content "error").bind
       (fun e => pyIndex e "code")) = some (.str "timeout") := by
  have h60 := (c8_timeout_dispatch "/v1/bulk" (some "r1") 61 ⟨200, .null⟩).1
    (by decide)
  have h30 := (c8_timeout_dispatch "/v1/pages" (some "r1") 1 ⟨200, .null⟩).2.1
    (by decide)
  have hpass := (c8_timeout_dispatch "/v1/pages" (some "r1") 1
    ⟨200, .null⟩).2.2.1 (by rw [h30]; norm_num)
  have hto := (c8_timeout_dispatch "/v1/bulk" (some "r1") 61
    ⟨200, .null⟩).2.2.2 (by rw [h60]; norm_num)
  exact ⟨h60, h30, hpass, hto.1, hto.2.1, hto.2.2⟩

/-- Counterexample to C1 as stated: an expired row whose stored hash
differs from the current request's hash is deleted by
`check_idempotency`, so the call does not leave the stored row
unmodified (the expiry check runs before the hash comparison). -/
theorem c1_counterexample :
    ((⟨"k", none, "h1", .null, 0⟩ : IdemRec).request_hash
       ≠ generate_request_hash (fun _ => "h0") "POST" "/v1/upsert" none none) ∧
    check_idempotency (fun _ => "h0") [⟨"k", none, "h1", .null, 0⟩] 1 "k"
      none "POST" "/v1/upsert" none none = (none, []) ∧
    ([] : List IdemRec) ≠ [⟨"k", none, "h1", .null, 0⟩] := by
  refine ⟨by decide, rfl, by simp⟩

/-- Claim C1 (amended): for an unexpired stored row, `check_idempotency`
with a mismatching request hash returns absent and leaves the table
unmodified, and with a matching hash returns the cached response body
(also leaving the table unmodified); an expired row is instead deleted
and reported absent regardless of hash. -/
theorem c1_check_idempotency (sha256_hex : String → String)
    (table : List IdemRec) (now : Nat) (idempotency_key : String)
    (connection_id : Option String) (method path : String)
    (body params : Option JVal) (r : IdemRec)
    (hfind : table.find? (fun x => x.key == idempotency_key) = some r)
    (hunexp : ¬ r.expires_at < now) :
    (r.request_hash ≠ generate_request_hash sha256_hex method path body params →
       check_idempotency sha256_hex table now idempotency_key connection_id
         method path body params = (none, table)) ∧
    (r.request_hash = generate_request_hash sha256_hex method path body params →
       check_idempotency sha256_hex table now idempotency_key connection_id
         method path body params = (some r.response_body, table)) := by
  constructor
  · intro hne
    simp [check_idempotency, hfind, hunexp, hne]
  · intro heq
    simp [check_idempotency, hfind, hunexp, heq]

/-- Witness for C1: on an unexpired row, a matching hash returns the
cached body and a mismatching hash is a miss, both leaving the table
untouched. -/
theorem c1_witness :
    check_idempotency (fun _ => "h") [⟨"k", none, "h", .null, 5⟩] 3 "k"
      none "POST" "/p" none none
      = (some .null, [⟨"k", none, "h", .null, 5⟩]) ∧
    check_idempotency (fun _ => "h") [⟨"k", none, "g", .null, 5⟩] 3 "k"
      none "POST" "/p" none none
      = (none, [⟨"k", none, "g", .null, 5⟩]) := by
  constructor
  · exact (c1_check_idempotency (fun _ => "h") [⟨"k", none, "h", .null, 5⟩]
      3 "k" none "POST" "/p" none none ⟨"k", none, "h", .null, 5⟩ rfl
      (by decide)).2 rfl
  · exact (c1_check_idempotency (fun _ => "h") [⟨"k", none, "g", .null, 5⟩]
      3 "k" none "POST" "/p" none none ⟨"k", none, "g", .null, 5⟩ rfl
      (by decide)).1 (by decide)

/-- Counterexample to C2 as stated: for the unique property `"Name"`
(lower-cased `"name"`), the engine's upsert still issues a rich-text
equals filter, not the title-equals filter the specification describes. -/
theorem c2_counterexample :
    upsert_page "db1" "Name" "X" [] none (.obj [("results", .arr [])])
      = some [.query "db1"
                (.obj [("property", .str "Name"),
                       ("rich_text", .obj [("equals", .str "X")])]) 1,
              .pageCreate (.obj [("type", .str "database_id"),
                                 ("database_id", .str "db1")]) [] none] ∧
    upsert_filter_as_specified "Name" "X"
      = .obj [("property", .str "Name"),
              ("title", .obj [("equals", .str "X")])] ∧
    upsert_filter_obj "Name" "X" ≠ upsert_filter_as_specified "Name" "X" := by
  have hcond : (py_lower "Name" = "name" ∨ py_lower "Name" = "title") :=
    Or.inl (by decide)
  have hspec : upsert_filter_as_specified "Name" "X"
      = .obj [("property", .str "Name"),
              ("title", .obj [("equals", .str "X")])] := by
    rw [upsert_filter_as_specified, if_pos hcond]
  refine ⟨rfl, hspec, ?_⟩
  intro h
  rw [upsert_filter_obj, hspec] at h
  simp at h

/-- Claim C2 (amended): for every database_id, unique_property and
unique_value, the Upsert operation's first upstream call queries the
database with page size 1 using a rich-text-equals comparison on
unique_property — for every property name, including those whose
lower-cased form is `"name"` or `"title"`. -/
theorem c2_upsert_query_filter (database_id unique_property unique_value :
    String) (properties : List (String × JVal))
    (children : Option (List JVal)) (query_result : JVal)
    (calls : List UpstreamCall)
    (h : upsert_page database_id unique_property unique_value properties
      children query_result = some calls) :
    calls.head? = some (.query database_id
      (.obj [("property", .str unique_property),
             ("rich_text", .obj [("equals", .str unique_value)])]) 1) := by
  simp only [upsert_page, upsert_filter_obj] at h
  split at h
  · exact absurd h (by simp)
  · split at h
    · rcases Option.map_eq_some'.mp h with ⟨norm, _, hc⟩
      subst hc; rfl
    · split at h
      · exact absurd h (by simp)
      · split at h
        · exact absurd h (by simp)
        · rcases Option.some.inj h with hc
          subst hc; rfl
    · split at h
      · exact absurd h (by simp)
      · rcases Option.map_eq_some'.mp h with ⟨norm, _, hc⟩
        subst hc; rfl

/-- Witness for C2 (amended): a concrete upsert on unique property
`"Name"` whose first upstream call is the rich-text-equals query. -/
theorem c2_witness :
    ([UpstreamCall.query "db1"
        (.obj [("property", .str "Name"),
               ("rich_text", .obj [("equals", .str "X")])]) 1,
      UpstreamCall.pageCreate (.obj [("type", .str "database_id"),
        ("database_id", .str "db1")]) [] none] : List UpstreamCall).head?
      = some (.query "db1"
          (.obj [("property", .str "Name"),
                 ("rich_text", .obj [("equals", .str "X")])]) 1) :=
  c2_upsert_query_filter "db1" "Name" "X" [] none
    (.obj [("results", .arr [])]) _ rfl

/-- On a relation list whose entries all carry an `"id"`, the id-list
extraction succeeds and Python membership of the target id in it agrees
with the per-entry predicate. -/
theorem relIds_exists (to_page_id : String) (rels : List JVal)
    (hwf : ∀ r ∈ rels, (pyIndex r "id").isSome) :
    ∃ ids, relIdsOf rels = some ids ∧
      pyMem (.str to_page_id) ids = rels.any (relEntryIs to_page_id) := by
  induction rels with
  | nil => exact ⟨[], rfl, rfl⟩
  | cons r rest ih =>
    obtain ⟨v, hv⟩ := Option.isSome_iff_exists.mp (hwf r (by simp))
    obtain ⟨ids, hids, hmem⟩ := ih (fun x hx => hwf x (by simp [hx]))
    refine ⟨v :: ids, ?_, ?_⟩
    · simp [relIdsOf, hv, hids]
    · simp [pyMem, List.any_cons, relEntryIs, hv] at hmem ⊢
      rw [hmem]

/-- `link_pages_relations` on a well-shaped page computes exactly one
`link_step` on the stored relation list. -/
theorem link_relations_step (relation_property to_page_id : String)
    (rels : List JVal) (hwf : ∀ r ∈ rels, (pyIndex r "id").isSome) :
    link_pages_relations (mkRelPage relation_property rels)
      relation_property to_page_id = some (link_step to_page_id rels) := by
  obtain ⟨ids, hids, hmem⟩ := relIds_exists to_page_id rels hwf
  simp [link_pages_relations, mkRelPage, pyGet, assocFind, asArr, hids,
    hmem, link_step]

/-- The count of entries for the target id after one `link_step`:
unchanged when an entry exists, one more when not. -/
theorem countRel_link_step (to_page_id : String) (rels : List JVal) :
    countRel to_page_id (link_step to_page_id rels)
      = if rels.any (relEntryIs to_page_id) then countRel to_page_id rels
        else countRel to_page_id rels + 1 := by
  rw [link_step]
  split
  · rfl
  · rw [countRel, List.countP_append]
    simp [countRel, relEntryIs, pyIndex, assocFind, jeq]

/-- Claim C3: when the from page's relation list already contains
`to_page_id`, the relation list submitted by Link is the unchanged
current list; and for any number `n ≥ 1` of successive Link calls against
a duplicate-free initial list with no external mutation, the resulting
relation list contains exactly one entry for `to_page_id`. -/
theorem c3_link_idempotent (relation_property to_page_id : String)
    (rels : List JVal) (hwf : ∀ r ∈ rels, (pyIndex r "id").isSome) :
    (link_pages_relations (mkRelPage relation_property rels)
       relation_property to_page_id = some (link_step to_page_id rels)) ∧
    (rels.any (relEntryIs to_page_id) = true →
       link_pages_relations (mkRelPage relation_property rels)
         relation_property to_page_id = some rels) ∧
    (∀ n, 1 ≤ n → countRel to_page_id rels ≤ 1 →
       countRel to_page_id ((link_step to_page_id)^[n] rels) = 1) := by
  have hzero : ∀ l, countRel to_page_id l = 0 →
      countRel to_page_id (link_step to_page_id l) = 1 := by
    intro l hl
    rw [countRel_link_step, if_neg, hl]
    intro hany
    obtain ⟨x, hx, hpx⟩ := List.any_eq_true.mp hany
    have : 0 < countRel to_page_id l :=
      List.countP_pos_iff.mpr ⟨x, hx, hpx⟩
    omega
  have hone : ∀ l, countRel to_page_id l = 1 →
      countRel to_page_id (link_step to_page_id l) = 1 := by
    intro l hl
    have hl' : 0 < List.countP (relEntryIs to_page_id) l := by
      rw [countRel] at hl
      omega
    rw [countRel_link_step, if_pos, hl]
    obtain ⟨x, hx, hpx⟩ := List.countP_pos_iff.mp hl'
    exact List.any_eq_true.mpr ⟨x, hx, hpx⟩
  refine ⟨link_relations_step relation_property to_page_id rels hwf, ?_, ?_⟩
  · intro hany
    rw [link_relations_step relation_property to_page_id rels hwf,
      link_step, if_pos hany]
  · intro n hn hle
    induction n with
    | zero => omega
    | succ m ih =>
      rcases Nat.eq_zero_or_pos m with hm | hm
      · subst hm
        rw [Function.iterate_succ_apply', Function.iterate_zero_apply]
        rcases Nat.le_one_iff_eq_zero_or_eq_one.mp hle with h0 | h1
        · exact hzero _ h0
        · exact hone _ h1
      · rw [Function.iterate_succ_apply']
        exact hone _ (ih hm)

/-- Witness for C3: a second Link with the same target submits the current
one-entry list unchanged, and three successive Links starting from an
empty relation list leave exactly one entry for the target. -/
theorem c3_witness :
    link_pages_relations (mkRelPage "Related" [.obj [("id", .str "p2")]])
      "Related" "p2" = some [.obj [("id", .str "p2")]] ∧
    countRel "p2" ((link_step "p2")^[3] []) = 1 := by
  have h1 := c3_link_idempotent "Related" "p2" [.obj [("id", .str "p2")]]
    (by simp [pyIndex, assocFind])
  have h2 := c3_link_idempotent "Related" "p2" []
    (by simp)
  exact ⟨h1.2.1 (by decide), h2.2.2 3 (by norm_num) (by decide)⟩

/-- In every mode, the `errors` accumulator of the bulk loop is exactly
the failing entries of `results`, in order. -/
theorem bulk_loop_errors_filter (exec : Nat → Except String JVal)
    (mode : String) :
    ∀ (ops : List (Option String)) (k : Nat),
      (bulk_loop exec mode ops k).2
        = (bulk_loop exec mode ops k).1.filter (fun r => !r.success) := by
  intro ops
  induction ops with
  | nil => intro k; rfl
  | cons op rest ih =>
    intro k
    simp only [bulk_loop]
    split
    · simp [ih (k + 1)]
    · split
      · simp
      · simp [ih (k + 1)]

/-- Claim C10: for every operations list and mode, the Bulk summary
satisfies: `failed` equals the length of `errors`, every element of
`errors` also appears in `results` with `success = false`, every other
element of `results` has `success = true`, and
`succeeded + failed = |results|`. -/
theorem c10_bulk_summary_invariants (exec : Nat → Except String JVal)
    (operations : List (Option String)) (mode : String) :
    (bulk_operations exec operations mode).failed
      = (bulk_operations exec operations mode).errors.length ∧
    (∀ e ∈ (bulk_operations exec operations mode).errors,
       e ∈ (bulk_operations exec operations mode).results
         ∧ e.success = false) ∧
    (∀ r ∈ (bulk_operations exec operations mode).results,
       r ∉ (bulk_operations exec operations mode).errors
         → r.success = true) ∧
    (bulk_operations exec operations mode).succeeded
      + (bulk_operations exec operations mode).failed
      = (bulk_operations exec operations mode).results.length := by
  have hf := bulk_loop_errors_filter exec mode operations 0
  simp only [bulk_operations]
  refine ⟨by trivial, ?_, ?_, ?_⟩
  · intro e he
    rw [hf] at he
    have hm := List.mem_filter.mp he
    refine ⟨hm.1, ?_⟩
    simpa using hm.2
  · intro r hr hnotin
    rw [hf] at hnotin
    by_contra hs
    apply hnotin
    refine List.mem_filter.mpr ⟨hr, ?_⟩
    simp [Bool.not_eq_true] at hs
    simp [hs]
  · rw [hf, ← List.countP_eq_length_filter]
    have hc : (fun r : BulkEntry => !r.success)
        = (fun a : BulkEntry => decide ¬a.success = true) := by
      funext a
      cases a.success <;> simp
    rw [hc]
    have := List.length_eq_countP_add_countP (fun r : BulkEntry => r.success)
      ((bulk_loop exec mode operations 0).1)
    omega

/-- Consecutive indices from `k` over `n + 1` positions, split into the
head and the shifted tail. -/
theorem range_map_shift (k n : Nat) :
    (List.range (n + 1)).map (fun j => k + j)
      = k :: (List.range n).map (fun j => (k + 1) + j) := by
  rw [List.range_succ_eq_map, List.map_cons, List.map_map]
  refine congrArg₂ _ (Nat.add_zero k) ?_
  apply List.map_congr_left
  intro j _
  simp [Function.comp]
  omega

/-- In continue-on-error mode the loop records one entry per input, in
order, carrying consecutive indices from `k`. -/
theorem bulk_loop_continue_indices (exec : Nat → Except String JVal) :
    ∀ (ops : List (Option String)) (k : Nat),
      ((bulk_loop exec "continue_on_error" ops k).1).map (fun r => r.index)
        = (List.range ops.length).map (fun j => k + j) := by
  intro ops
  induction ops with
  | nil => intro k; rfl
  | cons op rest ih =>
    intro k
    simp only [bulk_loop, List.length_cons]
    rw [range_map_shift]
    split
    · simp only [List.map_cons]
      rw [ih (k + 1)]
    · split
      · next h => exact absurd h (by decide)
      · simp only [List.map_cons]
        rw [ih (k + 1)]

/-- In stop-on-error mode, when positions `0..i-1` succeed and position
`i` fails, the loop records exactly the `i` successes followed by the one
failure (indices consecutive from `k`), and exactly one error. -/
theorem bulk_loop_stop_shape (exec : Nat → Except String JVal) :
    ∀ (ops : List (Option String)) (k i : Nat), i < ops.length →
      (∀ j, j < i → ∃ v, bulk_step exec (k + j) (ops.getD j none) = .ok v) →
      (∃ e, bulk_step exec (k + i) (ops.getD i none) = .error e) →
      ((bulk_loop exec "stop_on_error" ops k).1.map (fun r => r.index)
         = (List.range (i + 1)).map (fun j => k + j)) ∧
      ((bulk_loop exec "stop_on_error" ops k).1.map (fun r => r.success)
         = List.replicate i true ++ [false]) ∧
      ((bulk_loop exec "stop_on_error" ops k).2.length = 1) := by
  intro ops
  induction ops with
  | nil =>
    intro k i hi
    simp at hi
  | cons op rest ih =>
    intro k i hi hok herr
    cases i with
    | zero =>
      obtain ⟨e, he⟩ := herr
      rw [List.getD_cons_zero, Nat.add_zero] at he
      simp only [bulk_loop]
      rw [he]
      refine ⟨?_, by simp, by simp⟩
      rw [show List.range 1 = [0] from rfl]
      simp
    | succ n =>
      obtain ⟨v, hv⟩ := hok 0 (Nat.succ_pos n)
      rw [List.getD_cons_zero, Nat.add_zero] at hv
      have hok' : ∀ j, j < n →
          ∃ w, bulk_step exec ((k + 1) + j) (rest.getD j none) = .ok w := by
        intro j hj
        have hx := hok (j + 1) (Nat.succ_lt_succ hj)
        rw [List.getD_cons_succ] at hx
        have harith : k + (j + 1) = (k + 1) + j := by omega
        rw [harith] at hx
        exact hx
      have herr' : ∃ e, bulk_step exec ((k + 1) + n) (rest.getD n none)
          = .error e := by
        obtain ⟨e, he⟩ := herr
        rw [List.getD_cons_succ] at he
        have harith : k + (n + 1) = (k + 1) + n := by omega
        rw [harith] at he
        exact ⟨e, he⟩
      obtain ⟨h1, h2, h3⟩ := ih (k + 1) n (by simpa using hi) hok' herr'
      simp only [bulk_loop]
      rw [hv]
      refine ⟨?_, ?_, ?_⟩
      · rw [range_map_shift]
        simp only [List.map_cons]
        rw [h1]
      · simp only [List.map_cons, h2, List.replicate_succ]
        rfl
      · simpa using h3

/-- Claim C4: for a non-empty operations list failing at position `i`
(all earlier positions succeeding), stop_on_error records the successes
for positions `0..i-1` and the failure at `i`, runs nothing after `i`,
and keeps original order and indices; continue_on_error records one entry
per input in order with its index; in both modes `total` is the input
length. -/
theorem c4_bulk_stop_vs_continue (exec : Nat → Except String JVal)
    (operations : List (Option String)) (i : Nat)
    (hi : i < operations.length)
    (hok : ∀ j, j < i → ∃ v, bulk_step exec j (operations.getD j none) = .ok v)
    (herr : ∃ e, bulk_step exec i (operations.getD i none) = .error e) :
    ((bulk_operations exec operations "stop_on_error").results.map
        (fun r => r.index) = List.range (i + 1)) ∧
    ((bulk_operations exec operations "stop_on_error").results.map
        (fun r => r.success) = List.replicate i true ++ [false]) ∧
    ((bulk_operations exec operations "stop_on_error").results.length
       = i + 1) ∧
    ((bulk_operations exec operations "stop_on_error").total
       = operations.length) ∧
    ((bulk_operations exec operations "continue_on_error").results.map
        (fun r => r.index) = List.range operations.length) ∧
    ((bulk_operations exec operations "continue_on_error").results.length
       = operations.length) ∧
    ((bulk_operations exec operations "continue_on_error").total
       = operations.length) := by
  have hok0 : ∀ j, j < i →
      ∃ v, bulk_step exec (0 + j) (operations.getD j none) = .ok v := by
    intro j hj
    rw [Nat.zero_add]
    exact hok j hj
  have herr0 : ∃ e, bulk_step exec (0 + i) (operations.getD i none)
      = .error e := by
    rw [Nat.zero_add]
    exact herr
  obtain ⟨h1, h2, _⟩ := bulk_loop_stop_shape exec operations 0 i hi hok0 herr0
  have hcont := bulk_loop_continue_indices exec operations 0
  have hid : ∀ n, (List.range n).map (fun j => 0 + j) = List.range n := by
    intro n
    simp
  refine ⟨?_, ?_, ?_, rfl, ?_, ?_, rfl⟩
  · simp only [bulk_operations]
    rw [h1, hid]
  · simp only [bulk_operations]
    exact h2
  · have hlen := congrArg List.length h1
    simpa [bulk_operations] using hlen
  · simp only [bulk_operations]
    rw [hcont, hid]
  · have hlen := congrArg List.length hcont
    simpa [bulk_operations] using hlen

/-- Witness for C4: three operations with a failure at position 1 —
stop_on_error yields two entries (indices 0 and 1, success then failure),
continue_on_error yields all three, and total is 3. -/
theorem c4_witness :
    ((bulk_operations
        (fun n => if n = 1 then Except.error "boom" else Except.ok JVal.null)
        [some "upsert", some "link", some "upsert"]
        "stop_on_error").results.map (fun r => r.index) = [0, 1]) ∧
    ((bulk_operations
        (fun n => if n = 1 then Except.error "boom" else Except.ok JVal.null)
        [some "upsert", some "link", some "upsert"]
        "stop_on_error").results.map (fun r => r.success) = [true, false]) ∧
    ((bulk_operations
        (fun n => if n = 1 then Except.error "boom" else Except.ok JVal.null)
        [some "upsert", some "link", some "upsert"]
        "continue_on_error").results.length = 3) ∧
    ((bulk_operations
        (fun n => if n = 1 then Except.error "boom" else Except.ok JVal.null)
        [some "upsert", some "link", some "upsert"]
        "stop_on_error").total = 3) := by
  have h := c4_bulk_stop_vs_continue
    (fun n => if n = 1 then Except.error "boom" else Except.ok JVal.null)
    [some "upsert", some "link", some "upsert"] 1 (by norm_num)
    (by
      intro j hj
      interval_cases j
      exact ⟨JVal.null, rfl⟩)
    ⟨"boom", rfl⟩
  refine ⟨?_, ?_, ?_, ?_⟩
  · have h1 := h.1
    rwa [show List.range (1 + 1) = [0, 1] from rfl] at h1
  · have h2 := h.2.1
    rwa [show List.replicate 1 true ++ [false] = [true, false] from rfl] at h2
  · have h3 := h.2.2.2.2.2.1
    simpa using h3
  · have h4 := h.2.2.2.1
    simpa using h4

/-- The retry loop sleeps at most `max_retries - 1 - attempt` times from
a given attempt (each sleep precedes one further call). -/
theorem retry_from_delays_le (f : Nat → Except ApiError α) (mr : Nat)
    (d : ℚ) :
    ∀ n a, mr - a ≤ n →
      (retry_request_from f mr d a).2.length ≤ mr - 1 - a := by
  intro n
  induction n with
  | zero =>
    intro a ha
    rw [retry_request_from, if_neg (by omega)]
    simp
  | succ n ih =>
    intro a ha
    rw [retry_request_from]
    by_cases hlt : a < mr
    · rw [if_pos hlt]
      cases hf : f a with
      | ok v => simp [hf]
      | error e =>
        simp only [hf]
        by_cases hcond : e.code ∈ ["rate_limited", "service_unavailable"]
            ∧ a < mr - 1
        · rw [if_pos hcond]
          have hrec := ih (a + 1) (by omega)
          simp only [List.length_cons]
          omega
        · rw [if_neg hcond]
          simp
    · rw [if_neg hlt]
      simp

/-- A non-retryable upstream error reached at any live attempt is
re-raised at once, with no backoff sleep. -/
theorem retry_from_nonretryable (f : Nat → Except ApiError α) (mr : Nat)
    (d : ℚ) (k : Nat) (e : ApiError) (hk : k < mr) (hf : f k = .error e)
    (hcode : e.code ∉ ["rate_limited", "service_unavailable"]) :
    retry_request_from f mr d k = (.raised e, []) := by
  rw [retry_request_from, if_pos hk]
  simp only [hf]
  rw [if_neg]
  intro hcontra
  exact hcode hcontra.1

/-- When every attempt fails with a retryable code, the loop sleeps
`retry_delay * 2 ^ attempt` before each retry and finally re-raises the
last attempt's error. -/
theorem retry_from_all_retryable (f : Nat → Except ApiError α) (mr : Nat)
    (d : ℚ) (e : ApiError) (he : f (mr - 1) = .error e)
    (hall : ∀ i, i < mr → ∃ err, f i = .error err ∧
      err.code ∈ ["rate_limited", "service_unavailable"]) :
    ∀ n a, a < mr → n = mr - 1 - a →
      retry_request_from f mr d a
        = (.raised e, (List.range n).map (fun j => d * 2 ^ (a + j))) := by
  intro n
  induction n with
  | zero =>
    intro a ha hn
    have haeq : a = mr - 1 := by omega
    subst haeq
    rw [retry_request_from, if_pos ha]
    simp only [he]
    rw [if_neg]
    · simp
    · intro hcontra
      omega
  | succ n ih =>
    intro a ha hn
    have ha1 : a < mr - 1 := by omega
    obtain ⟨err, herr, hcode⟩ := hall a ha
    rw [retry_request_from, if_pos ha]
    simp only [herr]
    rw [if_pos ⟨hcode, ha1⟩, ih (a + 1) (by omega) (by omega)]
    refine congrArg (Prod.mk _) ?_
    rw [List.range_succ_eq_map, List.map_cons, List.map_map]
    refine congrArg₂ _ (by rw [Nat.add_zero]) ?_
    apply List.map_congr_left
    intro j _
    simp only [Function.comp]
    have harith : (a + 1) + j = a + (j + 1) := by omega
    rw [harith]

/-- Claim C5: the retry wrapper makes at most `max_retries` attempts
(sleep count plus the first call), re-raises a non-retryable upstream
error immediately with no backoff, and under persistent retryable errors
sleeps `retry_delay * 2 ^ attempt` before each retry and raises the last
error when retries are exhausted. -/
theorem c5_retry_policy (f : Nat → Except ApiError α) (max_retries : Nat)
    (retry_delay : ℚ) (hmr : 1 ≤ max_retries) :
    ((retry_request f max_retries retry_delay).2.length + 1 ≤ max_retries) ∧
    (∀ k e, k < max_retries → f k = .error e →
       e.code ∉ ["rate_limited", "service_unavailable"] →
       retry_request_from f max_retries retry_delay k = (.raised e, [])) ∧
    (∀ e, f (max_retries - 1) = .error e →
       (∀ i, i < max_retries → ∃ err, f i = .error err ∧
          err.code ∈ ["rate_limited", "service_unavailable"]) →
       retry_request f max_retries retry_delay
         = (.raised e, (List.range (max_retries - 1)).map
             (fun i => retry_delay * 2 ^ i))) := by
  refine ⟨?_, ?_, ?_⟩
  · have h := retry_from_delays_le f max_retries retry_delay
      (max_retries) 0 (by omega)
    rw [retry_request]
    omega
  · intro k e hk hf hcode
    exact retry_from_nonretryable f max_retries retry_delay k e hk hf hcode
  · intro e he hall
    have h := retry_from_all_retryable f max_retries retry_delay e he hall
      (max_retries - 1) 0 (by omega) (by omega)
    rw [retry_request, h]
    refine congrArg (Prod.mk _) ?_
    apply List.map_congr_left
    intro j _
    rw [Nat.zero_add]

/-- Witness for C5: with `max_retries = 3`, `retry_delay = 1`, a
persistently rate-limited upstream sleeps 1 then 2 seconds and raises the
error; a validation error raises at once; the attempt bound holds. -/
theorem c5_witness :
    (retry_request (fun _ => (.error ⟨"rate_limited"⟩ : Except ApiError Unit))
        3 1
      = (.raised ⟨"rate_limited"⟩,
         (List.range 2).map (fun i => (1 : ℚ) * 2 ^ i))) ∧
    (retry_request_from
        (fun _ => (.error ⟨"validation_error"⟩ : Except ApiError Unit)) 3 1 0
      = (.raised ⟨"validation_error"⟩, [])) ∧
    ((retry_request (fun _ => (.error ⟨"rate_limited"⟩ : Except ApiError Unit))
        3 1).2.length + 1 ≤ 3) := by
  have h := c5_retry_policy
    (fun _ => (.error ⟨"rate_limited"⟩ : Except ApiError Unit)) 3 1
    (by norm_num)
  have h2 := c5_retry_policy
    (fun _ => (.error ⟨"validation_error"⟩ : Except ApiError Unit)) 3 1
    (by norm_num)
  refine ⟨?_, ?_, h.1⟩
  · exact h.2.2 ⟨"rate_limited"⟩ rfl
      (fun i _ => ⟨⟨"rate_limited"⟩, rfl, by decide⟩)
  · exact h2.2.1 0 ⟨"validation_error"⟩ (by norm_num) rfl (by decide)

/-- Witness for C10: on a concrete two-operation bulk with a failure at
position 1, the failing entry is in `results` with `success = false`,
and the summary counts add up. -/
theorem c10_witness :
    ((bulk_operations
        (fun n => if n = 1 then Except.error "boom" else Except.ok JVal.null)
        [some "upsert", some "link"] "continue_on_error").succeeded
      + (bulk_operations
          (fun n => if n = 1 then Except.error "boom" else Except.ok JVal.null)
          [some "upsert", some "link"] "continue_on_error").failed
      = (bulk_operations
          (fun n => if n = 1 then Except.error "boom" else Except.ok JVal.null)
          [some "upsert", some "link"] "continue_on_error").results.length) ∧
    (({ index := 1, operation := some "link", success := false,
        result := none, error := some "boom" } : BulkEntry)
       ∈ (bulk_operations
           (fun n => if n = 1 then Except.error "boom" else Except.ok JVal.null)
           [some "upsert", some "link"] "continue_on_error").results ∧
     ({ index := 1, operation := some "link", success := false,
        result := none, error := some "boom" } : BulkEntry).success = false) := by
  have h := c10_bulk_summary_invariants
    (fun n => if n = 1 then Except.error "boom" else Except.ok JVal.null)
    [some "upsert", some "link"] "continue_on_error"
  refine ⟨h.2.2.2, ?_⟩
  refine h.2.1 _ ?_
  rw [show (bulk_operations
      (fun n => if n = 1 then Except.error "boom" else Except.ok JVal.null)
      [some "upsert", some "link"] "continue_on_error").errors
    = [{ index := 1, operation := some "link", success := false,
         result := none, error := some "boom" }] from rfl]
  exact List.mem_singleton_self _
